import Mathlib

/-!
Verification of the SPC computation core of the motor-sqc project.

The Python analysis modules (`src/utils/statistics.py`,
`src/analysis/capability_analysis.py`, `src/analysis/control_charts.py`,
`src/analysis/pareto_analysis.py`) are shallowly embedded over `ℚ`.
Floating-point arithmetic in the source is modelled by exact rational
arithmetic; `numpy` square roots are modelled by `Rat.sqrt`, which agrees
with the real square root whenever the radicand is the square of a
rational (every concrete input evaluated in this file has this property).
Division by zero, which yields `inf`/`nan` floats in the source without
raising, is mapped to the total-division convention of `ℚ`, namely `x / 0 = 0`; what
matters for the claims is that no error path exists, which the embedding
reflects by using total functions (an `Option` result appears only where
the source itself returns `None`).  Display-only rounding (`round(x, 2)`
etc.), the normal-CDF-based PPM figures, interpretation strings and all
chart/report rendering are outside every claim and are not embedded.
-/

namespace MotorSQC

/-- Arithmetic mean, `np.mean`.  For the empty list the source produces
`nan`; here `0 / 0 = 0` by the `ℚ` convention (no claim evaluates it). -/
def mean (xs : List ℚ) : ℚ := xs.sum / (xs.length : ℚ)

/-- Absolute successive differences, `np.abs(np.diff(data))`. -/
def moving_ranges (xs : List ℚ) : List ℚ :=
  (xs.zip xs.tail).map (fun p => |p.2 - p.1|)

/-- Mean of the moving ranges, `mr_bar = np.mean(np.abs(np.diff(data)))`. -/
def mr_bar (xs : List ℚ) : ℚ := mean (moving_ranges xs)

/-- Sample variance with the `N − 1` divisor, the square of
`np.std(data, ddof=1)`. -/
def sample_variance (xs : List ℚ) : ℚ :=
  (xs.map (fun x => (x - mean xs) ^ 2)).sum / ((xs.length : ℚ) - 1)

/-- Sample standard deviation `np.std(data, ddof=1)`.  The source takes a
float square root; `Rat.sqrt` is exact whenever the variance is the square
of a rational, which holds at every concrete input used below. -/
def sample_std (xs : List ℚ) : ℚ := Rat.sqrt (sample_variance xs)

/-- Moving-range sigma estimate of `capability_analysis.py` lines 72–75:
`sigma_within = np.mean(np.abs(np.diff(data))) / 1.128`. -/
def sigma_within (xs : List ℚ) : ℚ := mr_bar xs / 1.128

/-- Standardized series `z = (data - mean) / std` of `statistics.py`
line 220 and `control_charts.py` line 251. -/
def standardized (data : List ℚ) : List ℚ :=
  data.map (fun x => (x - mean data) / sample_std data)

/-- Row of the tabulated SPC control constants (`constants.py`). -/
structure ControlConstants where
  A2 : ℚ
  D3 : ℚ
  D4 : ℚ
  d2 : ℚ
deriving DecidableEq

/-- The `CONTROL_CONSTANTS` table of `constants.py` lines 6–12, keyed by
subgroup size. -/
def CONTROL_CONSTANTS : List (ℕ × ControlConstants) :=
  [ (1, ⟨2.659, 0, 3.267, 1.128⟩)
  , (2, ⟨1.880, 0, 3.267, 1.128⟩)
  , (3, ⟨1.023, 0, 2.574, 1.693⟩)
  , (4, ⟨0.729, 0, 2.282, 2.059⟩)
  , (5, ⟨0.577, 0, 2.114, 2.326⟩) ]

/-- Lookup `CONTROL_CONSTANTS.get(n, CONTROL_CONSTANTS[1])` of
`statistics.py` line 28 and `control_charts.py` line 47: a subgroup size
outside the table silently falls back to the row for `n = 1`. -/
def getConstants (n : ℕ) : ControlConstants :=
  (CONTROL_CONSTANTS.lookup n).getD ⟨2.659, 0, 3.267, 1.128⟩

/-- Result dictionary of `calculate_control_limits`; the `sigma` key is
present only for the `xbar` chart. -/
structure ControlLimitsResult where
  UCL : ℚ
  CL : ℚ
  LCL : ℚ
  sigma : Option ℚ
deriving DecidableEq

/-- Contiguous slices `data[i:i+n]` for `i = 0, n, 2n, ...`, the subgroup
partition of `for i in range(0, len(data), n)`.  A step of `0` raises
`ValueError` in Python; that unreachable case is mapped to `[]`. -/
def chunks : ℕ → List ℚ → List (List ℚ)
  | _, [] => []
  | 0, _ :: _ => []
  | m + 1, x :: xs => (x :: xs).take (m + 1) :: chunks (m + 1) (xs.drop m)
termination_by _ l => l.length
decreasing_by
  simp only [List.length_cons, List.length_drop]
  omega

/-- Ranges of the contiguous size-`n` subgroups, dropping a trailing
partial subgroup (`statistics.py` lines 41–45 and 78–82). -/
def subgroup_ranges (data : List ℚ) (n : ℕ) : List ℚ :=
  ((chunks n data).filter (fun s => s.length == n)).map
    (fun s => (s.max?.getD 0) - (s.min?.getD 0))

/-- Embedding of `StatisticalCalculator.calculate_control_limits`
(`statistics.py` lines 14–94).  A `chart_type` other than `"xbar"`,
`"mr"`, `"r"` falls through every branch, so the Python function returns
`None`; this is modelled by the `none` result. -/
def calculate_control_limits (data : List ℚ) (chart_type : String)
    (subgroup_size : ℕ) : Option ControlLimitsResult :=
  let n := subgroup_size
  let constants := getConstants n
  if chart_type = "xbar" then
    let x_bar := mean data
    let sigma_estimate :=
      if n = 1 then mr_bar data / constants.d2
      else mean (subgroup_ranges data n) / constants.d2
    some ⟨x_bar + 3 * sigma_estimate, x_bar, x_bar - 3 * sigma_estimate,
          some sigma_estimate⟩
  else if chart_type = "mr" then
    let m := mr_bar data
    some ⟨constants.D4 * m, m, constants.D3 * m, none⟩
  else if chart_type = "r" then
    let r_bar := mean (subgroup_ranges data n)
    some ⟨constants.D4 * r_bar, r_bar, constants.D3 * r_bar, none⟩
  else none

/-- Specification limits dictionary with keys USL, LSL, Target. -/
structure SpecLimitsQ where
  USL : ℚ
  LSL : ℚ
  Target : Option ℚ
deriving DecidableEq

/-- Numeric fields of the dictionary returned by
`StatisticalCalculator.calculate_process_capability` (`statistics.py`
lines 96–161); the interpretation string and the normal-CDF PPM figure
are presentation-side and not embedded.  Note `sigma_level` is
`3 + cpk` in this function (line 159). -/
structure CapabilityStats where
  Cp : ℚ
  Cpk : ℚ
  Cpm : ℚ
  CPU : ℚ
  CPL : ℚ
  mean : ℚ
  std : ℚ
  sigma_level : ℚ
deriving DecidableEq

/-- Embedding of `StatisticalCalculator.calculate_process_capability`
(`statistics.py` lines 96–161).  It returns `None` exactly when
`spec_limits is None`; otherwise it computes with the ordinary sample
standard deviation `np.std(data, ddof=1)` and never raises — a zero
standard deviation flows into the divisions (float `inf` in the source,
`/ 0 = 0` here). -/
def calculate_process_capability (data : List ℚ)
    (spec_limits : Option SpecLimitsQ) : Option CapabilityStats :=
  match spec_limits with
  | none => none
  | some s =>
    let m := mean data
    let std := sample_std data
    let target := s.Target.getD ((s.USL + s.LSL) / 2)
    let cp := (s.USL - s.LSL) / (6 * std)
    let cpu := (s.USL - m) / (3 * std)
    let cpl := (m - s.LSL) / (3 * std)
    let cpk := min cpu cpl
    let msd := std ^ 2 + (m - target) ^ 2
    let cpm := (s.USL - s.LSL) / (6 * Rat.sqrt msd)
    some ⟨cp, cpk, cpm, cpu, cpl, m, std, 3 + cpk⟩

/-- Numeric fields of the result of
`ProcessCapability.calculate_capability_indices`
(`capability_analysis.py` lines 146–178): the `indices` and `statistics`
sub-dictionaries plus `sigma_level`; the PPM block (normal CDF),
observed-PPM and interpretation strings are presentation-side and not
embedded. -/
structure CapabilityIndices where
  Cp : ℚ
  Cpk : ℚ
  CPU : ℚ
  CPL : ℚ
  Cpm : ℚ
  Pp : ℚ
  Ppk : ℚ
  k : ℚ
  mean : ℚ
  target : ℚ
  sigma_within : ℚ
  sigma_overall : ℚ
  sigma_level : ℚ
deriving DecidableEq

/-- Embedding of the computational core of
`ProcessCapability.calculate_capability_indices`
(`capability_analysis.py` lines 65–106) for explicitly supplied `usl`,
`lsl` and optional `target` (the `SPEC_LIMITS`/DataFrame lookup of lines
47–63 is collaborator glue).  `sigma_within` is the moving-range
estimate `mr_bar / 1.128`; `sigma_overall` is the sample standard
deviation; `sigma_level = 3·Cpk + 1.5` (lines 103–106).  The function is
total: a constant series gives `sigma_within = 0` and the divisions by
zero proceed (float `inf` in the source, `/ 0 = 0` here) — no error is
raised. -/
def calculate_capability_indices (data : List ℚ) (usl lsl : ℚ)
    (target : Option ℚ) : CapabilityIndices :=
  let target_v := target.getD ((usl + lsl) / 2)
  let m := mean data
  let sw := sigma_within data
  let so := sample_std data
  let cp := (usl - lsl) / (6 * sw)
  let cpu := (usl - m) / (3 * sw)
  let cpl := (m - lsl) / (3 * sw)
  let cpk := min cpu cpl
  let msd := sw ^ 2 + (m - target_v) ^ 2
  let cpm := (usl - lsl) / (6 * Rat.sqrt msd)
  let pp := (usl - lsl) / (6 * so)
  let ppu := (usl - m) / (3 * so)
  let ppl := (m - lsl) / (3 * so)
  let ppk := min ppu ppl
  let kIdx := |m - target_v| / ((usl - lsl) / 2)
  let z_bench := 3 * cpk
  let sigma_level := z_bench + 1.5
  ⟨cp, cpk, cpu, cpl, cpm, pp, ppk, kIdx, m, target_v, sw, so, sigma_level⟩

/-- Tail of the EWMA recurrence `z[i] = λ·x[i] + (1−λ)·z[i-1]`
(`statistics.py` lines 180–181, `control_charts.py` lines 175–176),
given the previous value `z`. -/
def ewma_from (lambda_val : ℚ) (z : ℚ) : List ℚ → List ℚ
  | [] => []
  | x :: xs =>
    let z2 := lambda_val * x + (1 - lambda_val) * z
    z2 :: ewma_from lambda_val z2 xs

/-- EWMA sequence of `statistics.py` lines 176–181 and
`control_charts.py` lines 172–176: `z[0] = np.mean(data)` (the chart is
anchored at the process mean, not at the first observation), then the
recurrence for `i ≥ 1`.  The empty series, on which the source would
raise an `IndexError` at `z[0] = ...`, is mapped to the empty list. -/
def ewma_values (data : List ℚ) (lambda_val : ℚ) : List ℚ :=
  match data with
  | [] => []
  | d :: xs => mean (d :: xs) :: ewma_from lambda_val (mean (d :: xs)) xs

/-- Trend labels of `control_charts.py` lines 202–209: `Artan`
(rising), `Azalan` (falling), `Stabil` (stable). -/
inductive Trend where
  | rising
  | falling
  | stable
deriving DecidableEq

/-- Test `all(l[i] > l[i-1] for i in range(1, len(l)))`: every element
strictly exceeds its predecessor. -/
def strictly_increasing (l : List ℚ) : Bool :=
  (l.zip l.tail).all (fun p => decide (p.1 < p.2))

/-- Test `all(l[i] < l[i-1] for i in range(1, len(l)))`: every element is
strictly below its predecessor. -/
def strictly_decreasing (l : List ℚ) : Bool :=
  (l.zip l.tail).all (fun p => decide (p.2 < p.1))

/-- Trend classification of `control_charts.py` lines 202–209: only when
`len(z) > 10` (strictly more than ten points) are the last ten EWMA
values `z[-10:]` examined; otherwise the trend stays `Stabil`. -/
def classify_trend (z : List ℚ) : Trend :=
  if 10 < z.length then
    let recent := z.drop (z.length - 10)
    if strictly_increasing recent then .rising
    else if strictly_decreasing recent then .falling
    else .stable
  else .stable

/-- Trend reported by `ControlCharts.create_ewma_chart`: the
classification applied to the EWMA sequence of the series. -/
def ewma_trend (data : List ℚ) (lambda_val : ℚ) : Trend :=
  classify_trend (ewma_values data lambda_val)

/-- Tail of the upper CUSUM loop `c_plus[i] = max(0, z[i] - k + c_plus[i-1])`
(`statistics.py` line 227, `control_charts.py` line 258), given the
previous cumulative sum `c`. -/
def cusum_plus_from (k c : ℚ) : List ℚ → List ℚ
  | [] => []
  | x :: xs =>
    let c2 := max 0 (x - k + c)
    c2 :: cusum_plus_from k c2 xs

/-- Upper one-sided cumulative sums: `c_plus = np.zeros(n)` leaves
`C+[0] = 0`, then the loop runs from index 1. -/
def cusum_plus (z : List ℚ) (k : ℚ) : List ℚ :=
  match z with
  | [] => []
  | _ :: zs => 0 :: cusum_plus_from k 0 zs

/-- Tail of the lower CUSUM loop `c_minus[i] = max(0, -z[i] - k + c_minus[i-1])`
(`statistics.py` line 228, `control_charts.py` line 259). -/
def cusum_minus_from (k c : ℚ) : List ℚ → List ℚ
  | [] => []
  | x :: xs =>
    let c2 := max 0 (-x - k + c)
    c2 :: cusum_minus_from k c2 xs

/-- Lower one-sided cumulative sums, `C−[0] = 0` then the loop. -/
def cusum_minus (z : List ℚ) (k : ℚ) : List ℚ :=
  match z with
  | [] => []
  | _ :: zs => 0 :: cusum_minus_from k 0 zs

/-- Result of `StatisticalCalculator.calculate_cusum` (`statistics.py`
lines 236–241). -/
structure CusumResult where
  C_plus : List ℚ
  C_minus : List ℚ
  h_limit : ℚ
  out_of_control_points : List ℕ
deriving DecidableEq

/-- Embedding of `StatisticalCalculator.calculate_cusum` (`statistics.py`
lines 203–241): standardize the series, run both one-sided recurrences,
and flag every index whose cumulative sum exceeds `h`. -/
def calculate_cusum (data : List ℚ) (k h : ℚ) : CusumResult :=
  let z := standardized data
  let cp := cusum_plus z k
  let cm := cusum_minus z k
  { C_plus := cp
  , C_minus := cm
  , h_limit := h
  , out_of_control_points :=
      (List.range data.length).filter
        (fun i => decide (h < cp.getD i 0 ∨ h < cm.getD i 0)) }

/-- Pareto bands of `pareto_analysis.py` lines 68–72: `Hayati Azinlik (A)`
(vital few), `Orta Onem (B)` (significant), `Onemsiz Cogunluk (C)`
(trivial many). -/
inductive ParetoBand where
  | vitalFew
  | significant
  | trivialMany
deriving DecidableEq

/-- Band assignment of `pareto_analysis.py` lines 68–72: cumulative
percent `≤ 80` is vital few, `≤ 95` significant, else trivial many —
both boundaries inclusive. -/
def pareto_category (cum : ℚ) : ParetoBand :=
  if cum ≤ 80 then .vitalFew
  else if cum ≤ 95 then .significant
  else .trivialMany

/-- Row of the Pareto table built by `ParetoAnalysis.analyze_defects`
(`Hata_Turu`, `Adet`, `Yuzde`, `Kumulatif_Yuzde`, `Kategori`). -/
structure ParetoEntry where
  category : String
  count : ℕ
  pct : ℚ
  cum_pct : ℚ
  band : ParetoBand
deriving DecidableEq

/-- Insertion step of the descending-by-count sort (`sort_values
(ascending=False)` on the grouped counts). -/
def insert_by_count (p : String × ℕ) : List (String × ℕ) → List (String × ℕ)
  | [] => [p]
  | q :: rest => if p.2 ≤ q.2 then q :: insert_by_count p rest else p :: q :: rest

/-- Sort the category counts in descending count order. -/
def sort_by_count_desc (l : List (String × ℕ)) : List (String × ℕ) :=
  l.foldr insert_by_count []

/-- Percent, cumulative percent and band for each sorted row
(`pareto_analysis.py` lines 62–72): `Yuzde = Adet / total · 100`,
`Kumulatif_Yuzde` is the running sum of the percents, and the band is
`pareto_category` of the cumulative percent. -/
def pareto_rows (total cum : ℚ) : List (String × ℕ) → List ParetoEntry
  | [] => []
  | (c, n) :: rest =>
    let pct := (n : ℚ) / total * 100
    let cum2 := cum + pct
    ⟨c, n, pct, cum2, pareto_category cum2⟩ :: pareto_rows total cum2 rest

/-- Embedding of the Pareto-table construction of
`ParetoAnalysis.analyze_defects` (`pareto_analysis.py` lines 49–72),
starting from the per-category defect counts (the grouping itself is a
DataFrame `groupby().size()`). -/
def analyze_defects (counts : List (String × ℕ)) : List ParetoEntry :=
  let sorted := sort_by_count_desc counts
  let total : ℚ := ((counts.map Prod.snd).sum : ℕ)
  pareto_rows total 0 sorted

/-! Helper lemmas shared across the claim theorems. -/

lemma rat_sqrt_one : Rat.sqrt 1 = 1 := by
  have h := Rat.sqrt_eq (1 : ℚ)
  rw [mul_one, abs_one] at h
  exact h

lemma sample_variance_zero_one_two : sample_variance [(0 : ℚ), 1, 2] = 1 := by
  norm_num [sample_variance, mean]

lemma sample_std_zero_one_two : sample_std [(0 : ℚ), 1, 2] = 1 := by
  rw [sample_std, sample_variance_zero_one_two, rat_sqrt_one]

lemma ewma_from_one (xs : List ℚ) : ∀ z : ℚ, ewma_from 1 z xs = xs := by
  induction xs with
  | nil => intro z; rfl
  | cons x xs ih =>
    intro z
    simp only [ewma_from, ih]
    norm_num

lemma cusum_plus_from_getD_nonneg (k : ℚ) (xs : List ℚ) :
    ∀ (c : ℚ) (i : ℕ), 0 ≤ (cusum_plus_from k c xs).getD i 0 := by
  induction xs with
  | nil => intro c i; simp [cusum_plus_from]
  | cons x xs ih =>
    intro c i
    cases i with
    | zero =>
      simp only [cusum_plus_from, List.getD_cons_zero]
      exact le_max_left _ _
    | succ j =>
      simp only [cusum_plus_from, List.getD_cons_succ]
      exact ih _ j

lemma cusum_minus_from_getD_nonneg (k : ℚ) (xs : List ℚ) :
    ∀ (c : ℚ) (i : ℕ), 0 ≤ (cusum_minus_from k c xs).getD i 0 := by
  induction xs with
  | nil => intro c i; simp [cusum_minus_from]
  | cons x xs ih =>
    intro c i
    cases i with
    | zero =>
      simp only [cusum_minus_from, List.getD_cons_zero]
      exact le_max_left _ _
    | succ j =>
      simp only [cusum_minus_from, List.getD_cons_succ]
      exact ih _ j

lemma cusum_plus_from_getD (k : ℚ) (xs : List ℚ) :
    ∀ (c : ℚ) (i : ℕ), i < xs.length →
      (cusum_plus_from k c xs).getD i 0 =
        max 0 (xs.getD i 0 - k + (c :: cusum_plus_from k c xs).getD i 0) := by
  induction xs with
  | nil => intro c i h; simp at h
  | cons x xs ih =>
    intro c i h
    cases i with
    | zero => simp [cusum_plus_from]
    | succ j =>
      have hj : j < xs.length := by simpa using h
      simp only [cusum_plus_from, List.getD_cons_succ]
      exact ih _ j hj

lemma cusum_minus_from_getD (k : ℚ) (xs : List ℚ) :
    ∀ (c : ℚ) (i : ℕ), i < xs.length →
      (cusum_minus_from k c xs).getD i 0 =
        max 0 (-(xs.getD i 0) - k + (c :: cusum_minus_from k c xs).getD i 0) := by
  induction xs with
  | nil => intro c i h; simp at h
  | cons x xs ih =>
    intro c i h
    cases i with
    | zero => simp [cusum_minus_from]
    | succ j =>
      have hj : j < xs.length := by simpa using h
      simp only [cusum_minus_from, List.getD_cons_succ]
      exact ih _ j hj

lemma cusum_plus_getD_nonneg (z : List ℚ) (k : ℚ) (i : ℕ) :
    0 ≤ (cusum_plus z k).getD i 0 := by
  cases z with
  | nil => simp [cusum_plus]
  | cons z0 zs =>
    cases i with
    | zero => simp [cusum_plus]
    | succ j =>
      simp only [cusum_plus, List.getD_cons_succ]
      exact cusum_plus_from_getD_nonneg k zs 0 j

lemma cusum_minus_getD_nonneg (z : List ℚ) (k : ℚ) (i : ℕ) :
    0 ≤ (cusum_minus z k).getD i 0 := by
  cases z with
  | nil => simp [cusum_minus]
  | cons z0 zs =>
    cases i with
    | zero => simp [cusum_minus]
    | succ j =>
      simp only [cusum_minus, List.getD_cons_succ]
      exact cusum_minus_from_getD_nonneg k zs 0 j

lemma cusum_plus_getD_succ (z : List ℚ) (k : ℚ) (i : ℕ) (h1 : 1 ≤ i)
    (h2 : i < z.length) :
    (cusum_plus z k).getD i 0 =
      max 0 (z.getD i 0 - k + (cusum_plus z k).getD (i - 1) 0) := by
  cases z with
  | nil => simp at h2
  | cons z0 zs =>
    obtain ⟨j, rfl⟩ : ∃ j, i = j + 1 := ⟨i - 1, by omega⟩
    have hj : j < zs.length := by simpa using h2
    simp only [cusum_plus, List.getD_cons_succ, Nat.add_sub_cancel]
    exact cusum_plus_from_getD k zs 0 j hj

lemma cusum_minus_getD_succ (z : List ℚ) (k : ℚ) (i : ℕ) (h1 : 1 ≤ i)
    (h2 : i < z.length) :
    (cusum_minus z k).getD i 0 =
      max 0 (-(z.getD i 0) - k + (cusum_minus z k).getD (i - 1) 0) := by
  cases z with
  | nil => simp at h2
  | cons z0 zs =>
    obtain ⟨j, rfl⟩ : ∃ j, i = j + 1 := ⟨i - 1, by omega⟩
    have hj : j < zs.length := by simpa using h2
    simp only [cusum_minus, List.getD_cons_succ, Nat.add_sub_cancel]
    exact cusum_minus_from_getD k zs 0 j hj

lemma strictly_increasing_eq_false_of_decreasing (l : List ℚ) (h2 : 2 ≤ l.length)
    (hd : strictly_decreasing l = true) : strictly_increasing l = false := by
  obtain ⟨a, b, t, rfl⟩ : ∃ a b t, l = a :: b :: t := by
    match l, h2 with
    | a :: b :: t, _ => exact ⟨a, b, t, rfl⟩
  have hba : b < a := by
    simp only [strictly_decreasing, List.tail_cons, List.zip_cons_cons,
      List.all_cons, Bool.and_eq_true, decide_eq_true_eq] at hd
    exact hd.1
  simp only [strictly_increasing, List.tail_cons, List.zip_cons_cons, List.all_cons]
  have hab : decide (a < b) = false := by
    simp [not_lt.2 hba.le]
  rw [hab, Bool.false_and]

lemma pareto_rows_band (total : ℚ) (l : List (String × ℕ)) :
    ∀ (cum : ℚ) (e : ParetoEntry), e ∈ pareto_rows total cum l →
      e.band = pareto_category e.cum_pct := by
  induction l with
  | nil => intro cum e he; simp [pareto_rows] at he
  | cons p rest ih =>
    intro cum e he
    obtain ⟨c, n⟩ := p
    simp only [pareto_rows, List.mem_cons] at he
    rcases he with he | he
    · subst he
      rfl
    · exact ih _ e he

/-! Claim theorems. -/

/-- C1: the specification demands that a constant (zero-variation) series
make the Cp/Cpk computation fail with DegenerateVariance, but the code
has no such error path.  On the flat series `[7,7,7,7,7]` both capability
entry points compute `sigma_within = 0` (respectively `std = 0`) and then
divide by it: the Python floats become `inf`/`nan` with no exception
raised (`ℚ` maps the division by zero to `0`), and
`calculate_process_capability` still returns a populated result
dictionary. -/
theorem c1_flat_series_not_rejected :
    sigma_within [(7 : ℚ), 7, 7, 7, 7] = 0
    ∧ (calculate_capability_indices [(7 : ℚ), 7, 7, 7, 7] 20 5 none).sigma_within = 0
    ∧ (calculate_process_capability [(7 : ℚ), 7, 7, 7, 7]
        (some ⟨20, 5, none⟩)).isSome = true := by
  refine ⟨?_, ?_, ?_⟩
  · norm_num [sigma_within, mr_bar, mean, moving_ranges]
  · norm_num [calculate_capability_indices, sigma_within, mr_bar, mean, moving_ranges]
  · simp [calculate_process_capability]

/-- C2: the specification demands that a subgroup size outside the
tabulated set n = 1..5 fail with UnsupportedSubgroupSize, but
`CONTROL_CONSTANTS.get(n, CONTROL_CONSTANTS[1])` silently falls back to
the n = 1 constants row and the code returns numeric limits.  For n = 6
on a 12-point series the xbar branch succeeds and its sigma estimate is
`r_bar / 1.128 = 5 / 1.128 = 625/141`, using the n = 1 value of d2. -/
theorem c2_unsupported_subgroup_size_fallback :
    getConstants 6 = getConstants 1
    ∧ (calculate_control_limits [(1 : ℚ), 2, 3, 4, 5, 6, 7, 8, 9, 10, 11, 12]
        ("xbar") 6).map (fun l => l.sigma) = some (some (625 / 141)) := by
  constructor
  · rfl
  · norm_num [calculate_control_limits,
      show getConstants 6 = ⟨2.659, 0, 3.267, 1.128⟩ from rfl,
      subgroup_ranges, chunks, List.max?, List.min?, List.filter, mean]

/-- C5 counterexample: with λ = 1 the EWMA sequence does NOT equal the
raw series at index 0: on `[0, 2]` the anchored first point is
`z[0] = mean = 1`, while `x[0] = 0`. -/
theorem c5_counterexample_first_point :
    (ewma_values [(0 : ℚ), 2] 1).getD 0 0 ≠ [(0 : ℚ), 2].getD 0 0 := by
  norm_num [ewma_values, ewma_from, mean]

/-- C5 (amended): with λ = 1 the EWMA recurrence yields `z[i] = x[i]` for
every index i ≥ 1, while the anchored first point is `z[0] = mean(series)`
(which differs from `x[0]` whenever the mean does). -/
theorem c5_ewma_lambda_one (data : List ℚ) :
    (∀ i, 1 ≤ i → i < data.length →
      (ewma_values data 1).getD i 0 = data.getD i 0)
    ∧ (data ≠ [] → (ewma_values data 1).getD 0 0 = mean data) := by
  cases data with
  | nil =>
    constructor
    · intro i h1 h2
      simp at h2
    · intro h
      exact absurd rfl h
  | cons d xs =>
    have he : ewma_values (d :: xs) 1 = mean (d :: xs) :: xs := by
      simp [ewma_values, ewma_from_one]
    constructor
    · intro i h1 h2
      obtain ⟨j, rfl⟩ : ∃ j, i = j + 1 := ⟨i - 1, by omega⟩
      rw [he]
      simp
    · intro _
      rw [he]
      rfl

/-- C5 witness: on the series `[0, 2]`, index 1 satisfies the amended
statement and the anchored head equals the mean. -/
theorem c5_ewma_lambda_one_witness :
    (ewma_values [(0 : ℚ), 2] 1).getD 1 0 = [(0 : ℚ), 2].getD 1 0
    ∧ (ewma_values [(0 : ℚ), 2] 1).getD 0 0 = mean [(0 : ℚ), 2] :=
  ⟨(c5_ewma_lambda_one [(0 : ℚ), 2]).1 1 (by norm_num) (by norm_num),
   (c5_ewma_lambda_one [(0 : ℚ), 2]).2 (by simp)⟩

/-- C9: on the counts A:50, B:30, C:15, D:5 the Pareto table carries
cumulative percents 50, 80, 95, 100 and bands vital-few, vital-few
(boundary 80 inclusive), significant (boundary 95 inclusive), trivial
many; and in general every produced row carries the band determined by
its cumulative percent through the thresholds ≤ 80 / ≤ 95 / else. -/
theorem c9_pareto_bands :
    (analyze_defects [("A", 50), ("B", 30), ("C", 15), ("D", 5)]).map
        (fun e => (e.category, e.cum_pct, e.band)) =
      [("A", 50, ParetoBand.vitalFew), ("B", 80, ParetoBand.vitalFew),
       ("C", 95, ParetoBand.significant), ("D", 100, ParetoBand.trivialMany)]
    ∧ ∀ (counts : List (String × ℕ)) (e : ParetoEntry),
        e ∈ analyze_defects counts → e.band = pareto_category e.cum_pct := by
  constructor
  · norm_num [analyze_defects, sort_by_count_desc, insert_by_count, pareto_rows,
      pareto_category]
  · intro counts e he
    exact pareto_rows_band _ _ _ e he

/-- C9 witness: the single row produced for the one-category count list
A:50 carries the band of its cumulative percent 100. -/
theorem c9_pareto_bands_witness :
    (⟨"A", 50, 100, 100, ParetoBand.trivialMany⟩ : ParetoEntry).band =
      pareto_category (⟨"A", 50, 100, 100, ParetoBand.trivialMany⟩ : ParetoEntry).cum_pct :=
  c9_pareto_bands.2 [("A", 50)] ⟨"A", 50, 100, 100, ParetoBand.trivialMany⟩
    (by norm_num [analyze_defects, sort_by_count_desc, insert_by_count, pareto_rows,
      pareto_category])

/-- C3 counterexample: `StatisticalCalculator.calculate_process_capability`
does NOT use the moving-range sigma: on `[0, 1, 2]` with USL = 4, LSL = 0
it returns `Cp = (4 − 0)/(6·std) = 2/3` from the sample standard
deviation `std = 1`, whereas the moving-range formula of the claim would
give `(4 − 0)/(6·sigma_within) = 94/125`. -/
theorem c3_counterexample_sample_std :
    (calculate_process_capability [(0 : ℚ), 1, 2] (some ⟨4, 0, none⟩)).map
        (fun r => r.Cp) = some (2 / 3)
    ∧ sample_std [(0 : ℚ), 1, 2] = 1
    ∧ (4 - 0) / (6 * sigma_within [(0 : ℚ), 1, 2]) = 94 / 125
    ∧ (2 : ℚ) / 3 ≠ 94 / 125 := by
  refine ⟨?_, sample_std_zero_one_two, ?_, by norm_num⟩
  · norm_num [calculate_process_capability, sample_std_zero_one_two]
  · norm_num [sigma_within, mr_bar, mean, moving_ranges]

/-- C3 (amended): `ProcessCapability.calculate_capability_indices` does
compute `Cp = (USL−LSL)/(6·sigma_within)` with the moving-range estimate
`mean(|x[i]−x[i-1]|)/1.128`, and that is exactly the sigma estimate the
control-limit engine reports for the individuals (xbar, n = 1) chart;
`StatisticalCalculator.calculate_process_capability`, however, computes
`Cp` from the ordinary sample standard deviation instead. -/
theorem c3_sigma_within_shared (data : List ℚ) (usl lsl : ℚ) (t : Option ℚ) :
    (calculate_capability_indices data usl lsl t).Cp =
      (usl - lsl) / (6 * sigma_within data)
    ∧ calculate_control_limits data ("xbar") 1 =
        some ⟨mean data + 3 * sigma_within data, mean data,
              mean data - 3 * sigma_within data, some (sigma_within data)⟩
    ∧ (calculate_process_capability data (some ⟨usl, lsl, t⟩)).map
        (fun r => r.Cp) = some ((usl - lsl) / (6 * sample_std data)) :=
  ⟨rfl, rfl, rfl⟩

/-- C4 counterexample: `StatisticalCalculator.calculate_process_capability`
reports `sigma_level = 3 + Cpk`, not `3·Cpk + 1.5`: on `[0, 1, 2]` with
USL = 4, LSL = 0 it yields `Cpk = 1/3` and `sigma_level = 10/3`, while
`3·Cpk + 1.5 = 5/2`. -/
theorem c4_counterexample_sigma_level :
    (calculate_process_capability [(0 : ℚ), 1, 2] (some ⟨4, 0, none⟩)).map
        (fun r => (r.Cpk, r.sigma_level)) = some (1 / 3, 10 / 3)
    ∧ (10 : ℚ) / 3 ≠ 3 * (1 / 3) + 1.5 := by
  constructor
  · norm_num [calculate_process_capability, sample_std_zero_one_two, mean]
  · norm_num

/-- C4 (amended): `ProcessCapability.calculate_capability_indices`
reports `sigma_level = 3·Cpk + 1.5` (the 1.5-sigma shift convention),
for every series, spec limits and target; but the other entry point,
`StatisticalCalculator.calculate_process_capability`, reports
`sigma_level = 3 + Cpk` instead. -/
theorem c4_sigma_level_formulas (data : List ℚ) (usl lsl : ℚ) (t : Option ℚ) :
    (calculate_capability_indices data usl lsl t).sigma_level =
      3 * (calculate_capability_indices data usl lsl t).Cpk + 1.5
    ∧ (calculate_process_capability data (some ⟨usl, lsl, t⟩)).map
        (fun r => r.sigma_level) =
      (calculate_process_capability data (some ⟨usl, lsl, t⟩)).map
        (fun r => 3 + r.Cpk) :=
  ⟨rfl, rfl⟩

/-- C6 counterexample: Cpk and Cp differ on a process whose mean equals
the supplied target: with the repository spec limits USL = 70, LSL = 55,
Target = 60 and the series `[59, 60, 61]` (mean exactly 60, the target)
the code yields `Cpk = 47/25` but `Cp = 141/50`, because equality needs
the mean at the midpoint (62.5), not at the target. -/
theorem c6_counterexample_target_not_midpoint :
    mean [(59 : ℚ), 60, 61] = 60
    ∧ (calculate_capability_indices [(59 : ℚ), 60, 61] 70 55 (some 60)).target = 60
    ∧ (calculate_capability_indices [(59 : ℚ), 60, 61] 70 55 (some 60)).Cpk ≠
        (calculate_capability_indices [(59 : ℚ), 60, 61] 70 55 (some 60)).Cp := by
  refine ⟨by norm_num [mean], rfl, ?_⟩
  have h1 : (calculate_capability_indices [(59 : ℚ), 60, 61] 70 55 (some 60)).Cpk = 47 / 25 := by
    norm_num [calculate_capability_indices, sigma_within, mr_bar, mean, moving_ranges]
  have h2 : (calculate_capability_indices [(59 : ℚ), 60, 61] 70 55 (some 60)).Cp = 141 / 50 := by
    norm_num [calculate_capability_indices, sigma_within, mr_bar, mean, moving_ranges]
  rw [h1, h2]
  norm_num

/-- C6 (amended): whenever `sigma_within > 0`, the indices of
`calculate_capability_indices` satisfy `Cpk ≤ Cp`; and `Cpk = Cp` when
the process mean sits at the midpoint `(USL+LSL)/2` of the specification
limits (the condition `mean = target` of the original claim suffices only
when the target is that midpoint). -/
theorem c6_cpk_le_cp (data : List ℚ) (usl lsl : ℚ) (t : Option ℚ)
    (hs : 0 < sigma_within data) :
    (calculate_capability_indices data usl lsl t).Cpk ≤
      (calculate_capability_indices data usl lsl t).Cp
    ∧ (mean data = (usl + lsl) / 2 →
        (calculate_capability_indices data usl lsl t).Cpk =
          (calculate_capability_indices data usl lsl t).Cp) := by
  have hne : sigma_within data ≠ 0 := ne_of_gt hs
  have hCp : (calculate_capability_indices data usl lsl t).Cp =
      (usl - lsl) / (6 * sigma_within data) := rfl
  have hCpk : (calculate_capability_indices data usl lsl t).Cpk =
      min ((usl - mean data) / (3 * sigma_within data))
        ((mean data - lsl) / (3 * sigma_within data)) := rfl
  constructor
  · rw [hCp, hCpk]
    have key : (usl - mean data) / (3 * sigma_within data) +
        (mean data - lsl) / (3 * sigma_within data) =
        2 * ((usl - lsl) / (6 * sigma_within data)) := by
      field_simp
      ring
    have h1 := min_le_left ((usl - mean data) / (3 * sigma_within data))
      ((mean data - lsl) / (3 * sigma_within data))
    have h2 := min_le_right ((usl - mean data) / (3 * sigma_within data))
      ((mean data - lsl) / (3 * sigma_within data))
    linarith
  · intro hm
    rw [hCp, hCpk, hm]
    have e1 : (usl - (usl + lsl) / 2) / (3 * sigma_within data) =
        (usl - lsl) / (6 * sigma_within data) := by
      field_simp
      ring
    have e2 : ((usl + lsl) / 2 - lsl) / (3 * sigma_within data) =
        (usl - lsl) / (6 * sigma_within data) := by
      field_simp
      ring
    rw [e1, e2, min_self]

/-- C6 witness: on `[59, 60, 61]` with USL = 65, LSL = 55 the mean 60 is
the midpoint, `sigma_within = 125/141 > 0`, and both parts of the amended
statement apply. -/
theorem c6_cpk_le_cp_witness :
    (calculate_capability_indices [(59 : ℚ), 60, 61] 65 55 none).Cpk ≤
      (calculate_capability_indices [(59 : ℚ), 60, 61] 65 55 none).Cp
    ∧ (mean [(59 : ℚ), 60, 61] = (65 + 55) / 2 →
        (calculate_capability_indices [(59 : ℚ), 60, 61] 65 55 none).Cpk =
          (calculate_capability_indices [(59 : ℚ), 60, 61] 65 55 none).Cp) :=
  c6_cpk_le_cp [(59 : ℚ), 60, 61] 65 55 none
    (by norm_num [sigma_within, mr_bar, mean, moving_ranges])

/-- C7 counterexample: a series with exactly 10 points whose EWMA values
are strictly increasing throughout (hence over its last 10 points) is
still classified stable, because the code only examines the trend when
`len(z) > 10`, i.e. from 11 points on — the claim asserts the
classification already applies with at least 10 points. -/
theorem c7_counterexample_ten_points :
    (ewma_values [(-1000 : ℚ), 1, 2, 4, 8, 16, 32, 64, 128, 256] (1 / 5)).length = 10
    ∧ strictly_increasing
        (ewma_values [(-1000 : ℚ), 1, 2, 4, 8, 16, 32, 64, 128, 256] (1 / 5)) = true
    ∧ ewma_trend [(-1000 : ℚ), 1, 2, 4, 8, 16, 32, 64, 128, 256] (1 / 5) =
        Trend.stable := by
  refine ⟨?_, ?_, ?_⟩ <;>
    norm_num [ewma_values, ewma_from, mean, strictly_increasing, ewma_trend,
      classify_trend, strictly_decreasing]

/-- C7 (amended): when the EWMA sequence has strictly more than 10
points (the code tests `len(z) > 10`), strict monotonic increase
(respectively decrease) of its last 10 values yields the rising
(respectively falling) classification, and any other shape yields
stable. -/
theorem c7_trend_classification (data : List ℚ) (lambda_val : ℚ)
    (hlen : 10 < (ewma_values data lambda_val).length) :
    (strictly_increasing ((ewma_values data lambda_val).drop
        ((ewma_values data lambda_val).length - 10)) = true →
      ewma_trend data lambda_val = Trend.rising)
    ∧ (strictly_decreasing ((ewma_values data lambda_val).drop
        ((ewma_values data lambda_val).length - 10)) = true →
      ewma_trend data lambda_val = Trend.falling)
    ∧ (strictly_increasing ((ewma_values data lambda_val).drop
        ((ewma_values data lambda_val).length - 10)) = false →
      strictly_decreasing ((ewma_values data lambda_val).drop
        ((ewma_values data lambda_val).length - 10)) = false →
      ewma_trend data lambda_val = Trend.stable) := by
  refine ⟨fun h1 => ?_, fun h2 => ?_, fun h1 h2 => ?_⟩
  · simp only [ewma_trend, classify_trend]
    rw [if_pos hlen]
    simp [h1]
  · have hrec : 2 ≤ ((ewma_values data lambda_val).drop
        ((ewma_values data lambda_val).length - 10)).length := by
      rw [List.length_drop]
      omega
    have h1 := strictly_increasing_eq_false_of_decreasing _ hrec h2
    simp only [ewma_trend, classify_trend]
    rw [if_pos hlen]
    simp [h1, h2]
  · simp only [ewma_trend, classify_trend]
    rw [if_pos hlen]
    simp [h1, h2]

/-- C7 witness: an 11-point series whose EWMA values strictly increase
over the last 10 indices is classified rising. -/
theorem c7_trend_classification_witness :
    ewma_trend [(-1000 : ℚ), 1, 2, 4, 8, 16, 32, 64, 128, 256, 512] (1 / 5) =
      Trend.rising :=
  (c7_trend_classification [(-1000 : ℚ), 1, 2, 4, 8, 16, 32, 64, 128, 256, 512]
      (1 / 5)
      (by norm_num [ewma_values, ewma_from, mean])).1
    (by norm_num [ewma_values, ewma_from, mean, strictly_increasing])

/-- C8: the CUSUM statistics of `calculate_cusum` start at
`C+[0] = C−[0] = 0`, obey the one-sided recurrences
`C+[i] = max(0, z[i]−k+C+[i-1])` and `C−[i] = max(0, −z[i]−k+C−[i-1])`
over the standardized series for every index i ≥ 1, and are non-negative
at every index. -/
theorem c8_cusum_invariants (data : List ℚ) (k h : ℚ) :
    ((calculate_cusum data k h).C_plus.getD 0 0 = 0
      ∧ (calculate_cusum data k h).C_minus.getD 0 0 = 0)
    ∧ (∀ i, 1 ≤ i → i < data.length →
        (calculate_cusum data k h).C_plus.getD i 0 =
          max 0 ((standardized data).getD i 0 - k +
            (calculate_cusum data k h).C_plus.getD (i - 1) 0)
        ∧ (calculate_cusum data k h).C_minus.getD i 0 =
          max 0 (-((standardized data).getD i 0) - k +
            (calculate_cusum data k h).C_minus.getD (i - 1) 0))
    ∧ (∀ i, 0 ≤ (calculate_cusum data k h).C_plus.getD i 0
        ∧ 0 ≤ (calculate_cusum data k h).C_minus.getD i 0) := by
  have hplus : (calculate_cusum data k h).C_plus = cusum_plus (standardized data) k := rfl
  have hminus : (calculate_cusum data k h).C_minus = cusum_minus (standardized data) k := rfl
  have hlen : (standardized data).length = data.length := by simp [standardized]
  refine ⟨⟨?_, ?_⟩, ?_, ?_⟩
  · rw [hplus]
    cases data with
    | nil => simp [standardized, cusum_plus]
    | cons d xs => simp [standardized, cusum_plus]
  · rw [hminus]
    cases data with
    | nil => simp [standardized, cusum_minus]
    | cons d xs => simp [standardized, cusum_minus]
  · intro i h1 h2
    rw [hplus, hminus]
    exact ⟨cusum_plus_getD_succ (standardized data) k i h1 (by rw [hlen]; exact h2),
      cusum_minus_getD_succ (standardized data) k i h1 (by rw [hlen]; exact h2)⟩
  · intro i
    rw [hplus, hminus]
    exact ⟨cusum_plus_getD_nonneg _ k i, cusum_minus_getD_nonneg _ k i⟩

/-- C8 witness: on the series `[0, 1, 2]` with k = 1/2 and h = 5, the
invariants instantiate at index 1 and index 2. -/
theorem c8_cusum_invariants_witness :
    (calculate_cusum [(0 : ℚ), 1, 2] (1 / 2) 5).C_plus.getD 1 0 =
      max 0 ((standardized [(0 : ℚ), 1, 2]).getD 1 0 - 1 / 2 +
        (calculate_cusum [(0 : ℚ), 1, 2] (1 / 2) 5).C_plus.getD 0 0)
    ∧ 0 ≤ (calculate_cusum [(0 : ℚ), 1, 2] (1 / 2) 5).C_minus.getD 2 0 :=
  ⟨((c8_cusum_invariants [(0 : ℚ), 1, 2] (1 / 2) 5).2.1 1 (by norm_num)
      (by norm_num)).1,
   ((c8_cusum_invariants [(0 : ℚ), 1, 2] (1 / 2) 5).2.2 2).2⟩

/-- C10: a chart_type other than xbar, mr and r falls through every
branch of `calculate_control_limits`, which therefore returns `None`
(here `none`) for every data array and subgroup size. -/
theorem c10_unknown_chart_type_returns_none (data : List ℚ) (n : ℕ)
    (chart_type : String) (h1 : chart_type ≠ "xbar") (h2 : chart_type ≠ "mr")
    (h3 : chart_type ≠ "r") :
    calculate_control_limits data chart_type n = none := by
  simp [calculate_control_limits, h1, h2, h3]

/-- C10 witness: the chart type ewma is none of the three handled cases
and yields `none`. -/
theorem c10_unknown_chart_type_returns_none_witness :
    calculate_control_limits [(1 : ℚ), 2] ("ewma") 1 = none :=
  c10_unknown_chart_type_returns_none [(1 : ℚ), 2] 1 ("ewma")
    (by decide) (by decide) (by decide)

end MotorSQC
